import Mathlib

/-!
Shallow embedding of `src/lab2/images/main.py`, a script that renders three
hardcoded 5-node network topologies (linear, ring, star) with `networkx` and
`matplotlib`, saving each as a PNG and printing one confirmation line per file.

The graph construction, the layout dictionaries, and the straight-line main
script are translated directly from the Python source.  External library
behaviour that the script relies on (`nx.circular_layout`, figure saving,
printing) is modelled explicitly where a claim needs it.
-/

namespace NetworkLabs

/-- A point used by a layout: either a cartesian literal (as written in the
Python source's position dictionaries) or a polar point (radius, angle in
turns) as produced by the modelled circular layout. -/
inductive Coord where
  | cart (x y : ℚ)
  | polar (radius : ℚ) (turn : ℚ)
  deriving DecidableEq, Repr

/-- A layout: the `pos` dictionary of the source, an association list from a
node label to its coordinate. -/
abbrev Layout := List (ℕ × Coord)

/-- The graph built by `nx.Graph()` followed by `G.add_edges_from(edges)`:
we record the edge list exactly as the source supplies it. -/
structure PyGraph where
  edges : List (ℕ × ℕ)
  deriving DecidableEq, Repr

/-- `networkx` node bookkeeping: adding an edge `(u, v)` registers `u` and
then `v` as nodes if not already present, preserving insertion order. -/
def addNode (ns : List ℕ) (v : ℕ) : List ℕ :=
  if v ∈ ns then ns else ns ++ [v]

/-- The node list of a graph built solely by `add_edges_from`, in
`networkx` insertion order. -/
def PyGraph.nodeList (G : PyGraph) : List ℕ :=
  G.edges.foldl (fun ns e => addNode (addNode ns e.1) e.2) []

/-- Undirected adjacency of the built graph: the edge was inserted in either
orientation. -/
def PyGraph.Adj (G : PyGraph) (a b : ℕ) : Prop :=
  (a, b) ∈ G.edges ∨ (b, a) ∈ G.edges

instance (G : PyGraph) (a b : ℕ) : Decidable (G.Adj a b) :=
  inferInstanceAs (Decidable ((a, b) ∈ G.edges ∨ (b, a) ∈ G.edges))

/-- Degree of a node: the number of recorded edges incident to it
(no self-loops occur in this script). -/
def PyGraph.degree (G : PyGraph) (v : ℕ) : ℕ :=
  (G.edges.filter (fun e => e.1 = v ∨ e.2 = v)).length

/-- Modelled from the spec: `nx.circular_layout(G)` (the `networkx` library
routine, not part of this repository) places the graph's nodes evenly spaced
on a common circle — node `i` (in node-list order) at radius 1 and angle
`i / n` turns. -/
def circular_layout (G : PyGraph) : Layout :=
  let ns := G.nodeList
  (List.range ns.length).zip ns |>.map
    (fun p => (p.2, Coord.polar 1 ((p.1 : ℚ) / (ns.length : ℚ))))

/-- The errors a run of `draw_topology` can surface in the script's own code:
a Python `UnboundLocalError` on a name that was never assigned, or the
`InvalidVariant` failure the specification prescribes for an unrecognized
variant (never produced by this source). -/
inductive PyErr where
  | unboundLocal (name : String)
  | invalidVariant
  deriving DecidableEq, Repr

/-- The state of the axes `ax` after `draw_topology` returns: the graph and
position dictionary it drew from, the title it set, and whether it turned
the axis decorations off. -/
structure AxesState where
  graph : PyGraph
  pos : Layout
  title : String
  axisOff : Bool
  deriving DecidableEq, Repr

/-- `draw_topology(graph_type, title, ax)` from the source: builds `G` and
`pos` according to the `if`/`elif` chain on `graph_type`, then draws nodes,
edges and labels, sets the title and disables the axis.  When `graph_type`
matches no branch, `pos` is never assigned and the first drawing call raises
`UnboundLocalError` for `pos`. -/
def draw_topology (graph_type title : String) : Except PyErr AxesState :=
  if graph_type = "linear" then
    let edges : List (ℕ × ℕ) := [(0, 1), (1, 2), (2, 3), (3, 4)]
    let G : PyGraph := ⟨edges⟩
    let pos : Layout := [(0, .cart 4 0), (1, .cart 3 1), (2, .cart 2 2),
      (3, .cart 1 1), (4, .cart 0 0)]
    .ok ⟨G, pos, title, true⟩
  else if graph_type = "ring" then
    let edges : List (ℕ × ℕ) := [(0, 1), (1, 2), (2, 3), (3, 4), (4, 0)]
    let G : PyGraph := ⟨edges⟩
    let pos : Layout := circular_layout G
    .ok ⟨G, pos, title, true⟩
  else if graph_type = "star" then
    let edges : List (ℕ × ℕ) := [(0, 1), (0, 2), (0, 3), (0, 4)]
    let G : PyGraph := ⟨edges⟩
    let pos : Layout := [(0, .cart 0 0), (1, .cart 1 1), (2, .cart 1 (-1)),
      (3, .cart (-1) (-1)), (4, .cart (-1) 1)]
    .ok ⟨G, pos, title, true⟩
  else
    .error (.unboundLocal "pos")

/-- The graph `draw_topology` constructs for a recognized variant (the empty
graph otherwise; never used at an unrecognized variant in the theorems). -/
def graphOf (variant : String) : PyGraph :=
  match draw_topology variant "" with
  | .ok st => st.graph
  | .error _ => ⟨[]⟩

/-- The layout `draw_topology` computes for a recognized variant. -/
def layoutOf (variant : String) : Layout :=
  match draw_topology variant "" with
  | .ok st => st.pos
  | .error _ => []

/-- Reachability between nodes: the reflexive-transitive closure of
adjacency. -/
def PyGraph.Reach (G : PyGraph) (a b : ℕ) : Prop :=
  Relation.ReflTransGen G.Adj a b

/-- Connectivity of the built graph: every pair of its nodes is joined by a
path of edges. -/
def PyGraph.Connected (G : PyGraph) : Prop :=
  ∀ a ∈ G.nodeList, ∀ b ∈ G.nodeList, G.Reach a b

/-- Consecutive elements of the list are adjacent in `G`. -/
def ChainAdj (G : PyGraph) : List ℕ → Prop
  | [] => True
  | [_] => True
  | a :: b :: rest => G.Adj a b ∧ ChainAdj G (b :: rest)

/-- `ChainAdj` is decidable by structural recursion (kept free of `Eq.rec`
so that it evaluates inside the kernel). -/
def decChainAdj (G : PyGraph) : (l : List ℕ) → Decidable (ChainAdj G l)
  | [] => .isTrue trivial
  | [_] => .isTrue trivial
  | _ :: b :: rest =>
    @instDecidableAnd _ _ (inferInstance) (decChainAdj G (b :: rest))

instance (G : PyGraph) (l : List ℕ) : Decidable (ChainAdj G l) :=
  decChainAdj G l

/-- `l` lists the vertices of a simple cycle of `G` in order: at least three
distinct vertices of the graph, consecutive ones adjacent, and the last
adjacent back to the first. -/
def IsCycleList (G : PyGraph) (l : List ℕ) : Prop :=
  3 ≤ l.length ∧ l.Nodup ∧ (∀ x ∈ l, x ∈ G.nodeList) ∧
    ChainAdj G l ∧ G.Adj (l.getLastD 0) (l.headD 0)

instance (G : PyGraph) (l : List ℕ) : Decidable (IsCycleList G l) :=
  inferInstanceAs (Decidable (3 ≤ l.length ∧ l.Nodup ∧
    (∀ x ∈ l, x ∈ G.nodeList) ∧ ChainAdj G l ∧
    G.Adj (l.getLastD 0) (l.headD 0)))

/-- The graph contains a cycle. -/
def HasCycle (G : PyGraph) : Prop :=
  ∃ l : List ℕ, IsCycleList G l

/-- All duplicate-free sequences of length at most `fuel` drawn from
`pool` (which may itself contain duplicates; each element is used at most
once). -/
def nodupSeqs (pool : List ℕ) : ℕ → List (List ℕ)
  | 0 => [[]]
  | fuel + 1 =>
    [] :: pool.flatMap (fun v => (nodupSeqs (pool.erase v) fuel).map (v :: ·))

/-- Completeness of the enumeration: every duplicate-free list drawn from
`pool` whose length fits in the fuel appears in `nodupSeqs pool fuel`. -/
theorem mem_nodupSeqs {l : List ℕ} : ∀ {pool : List ℕ} {fuel : ℕ},
    l.Nodup → l ⊆ pool → l.length ≤ fuel → l ∈ nodupSeqs pool fuel := by
  induction l with
  | nil =>
    intro pool fuel _ _ _
    cases fuel with
    | zero => simp [nodupSeqs]
    | succ n => simp [nodupSeqs]
  | cons v t ih =>
    intro pool fuel hnd hsub hlen
    cases fuel with
    | zero => simp at hlen
    | succ n =>
      have hv : v ∈ pool := hsub (List.mem_cons_self v t)
      have hndt : t.Nodup := hnd.of_cons
      have hvt : v ∉ t := by
        intro hmem
        exact (List.nodup_cons.mp hnd).1 hmem
      have hsubt : t ⊆ pool.erase v := by
        intro x hx
        have hxv : x ≠ v := by
          intro hxe
          subst hxe
          exact hvt hx
        exact (List.mem_erase_of_ne hxv).mpr (hsub (List.mem_cons_of_mem v hx))
      have hlent : t.length ≤ n := by
        simpa using Nat.succ_le_succ_iff.mp hlen
      have ht : t ∈ nodupSeqs (pool.erase v) n := ih hndt hsubt hlent
      simp only [nodupSeqs, List.mem_cons, List.mem_flatMap, List.mem_map]
      exact Or.inr ⟨v, hv, t, ht, rfl⟩

/-- Every vertex sequence of a simple cycle is duplicate-free and drawn from
the node list, so checking every such candidate refutes `HasCycle`. -/
theorem not_hasCycle_of_enum (G : PyGraph)
    (h : ∀ l ∈ nodupSeqs G.nodeList G.nodeList.length, ¬ IsCycleList G l) :
    ¬ HasCycle G := by
  rintro ⟨l, hl⟩
  obtain ⟨-, hnodup, hsub, -, -⟩ := id hl
  have hsub' : l ⊆ G.nodeList := fun x hx => hsub x hx
  have hlen : l.length ≤ G.nodeList.length :=
    (List.Nodup.subperm hnodup hsub').length_le
  exact h l (mem_nodupSeqs hnodup hsub' hlen) hl

/-- The turn components of the polar positions in a layout, in layout
order. -/
def polarTurns (L : Layout) : List ℚ :=
  L.filterMap fun p => match p.2 with | .polar _ t => some t | _ => none

/-- The radius components of the polar positions in a layout, in layout
order. -/
def polarRadii (L : Layout) : List ℚ :=
  L.filterMap fun p => match p.2 with | .polar r _ => some r | _ => none

/-- An observable side effect of the main script: a call into
`draw_topology` for a variant, a saved image file, or a printed line. -/
inductive Effect where
  | renderAttempt (variant : String)
  | save (filename : String) (fig : AxesState)
  | printLine (line : String)
  deriving DecidableEq, Repr

/-- One block of the straight-line main script:
`fig, ax = plt.subplots(...)`, `draw_topology(variant, title, ax)`,
`fig.savefig(fname)`, `print("Saved " + fname)`.  The oracles `renderOk`
and `saveOk` model whether the drawing-library call and the file write
succeed; the Python source has no `try`/`except`, so the first raising
statement ends the block with nothing after it executed. -/
def runStep (variant title fname : String) (renderOk saveOk : String → Bool) :
    List Effect × Bool :=
  if renderOk variant then
    match draw_topology variant title with
    | .ok fig =>
      if saveOk fname then
        ([.renderAttempt variant, .save fname fig,
          .printLine ("Saved " ++ fname)], true)
      else ([.renderAttempt variant], false)
    | .error _ => ([.renderAttempt variant], false)
  else ([.renderAttempt variant], false)

/-- The whole main script: the three blocks in source order (linear, ring,
star); a failing block stops the run, so later blocks never execute. -/
def runMain (renderOk saveOk : String → Bool) : List Effect × Bool :=
  let s1 := runStep "linear" "Linear Topology" "linear_topology.png" renderOk saveOk
  if s1.2 then
    let s2 := runStep "ring" "Ring Topology" "ring_topology.png" renderOk saveOk
    if s2.2 then
      let s3 := runStep "star" "Star Topology" "star_topology.png" renderOk saveOk
      (s1.1 ++ s2.1 ++ s3.1, s3.2)
    else (s1.1 ++ s2.1, false)
  else (s1.1, false)

/-- A run of the program as invoked: the source reads neither command-line
arguments nor environment variables, so both parameters are unused, and a
run in which no library call fails is the reference execution. -/
def programRun (_args : List String) (_env : List (String × String)) :
    List Effect × Bool :=
  runMain (fun _ => true) (fun _ => true)

/-- The effect trace of a fully successful run. -/
def mainEffects : List Effect := (programRun [] []).1

/-- The filenames saved by a trace, in order. -/
def savedFiles (es : List Effect) : List String :=
  es.filterMap fun e => match e with | .save n _ => some n | _ => none

/-- The lines printed by a trace, in order. -/
def printedLines (es : List Effect) : List String :=
  es.filterMap fun e => match e with | .printLine s => some s | _ => none

/-- The observable state of the output directory: filename to file
content. -/
def FileSys : Type := String → Option AxesState

/-- A save overwrites the file of that name unconditionally; other effects
leave the directory unchanged. -/
def applyEffect (fs : FileSys) : Effect → FileSys
  | .save n fig => fun k => if k = n then some fig else fs k
  | _ => fs

/-- Apply a whole trace to a directory state, in order. -/
def applyEffects (fs : FileSys) (es : List Effect) : FileSys :=
  es.foldl applyEffect fs

/-- The axes state `draw_topology` produces for the linear variant. -/
def figLinear : AxesState :=
  ⟨⟨[(0, 1), (1, 2), (2, 3), (3, 4)]⟩,
    [(0, .cart 4 0), (1, .cart 3 1), (2, .cart 2 2), (3, .cart 1 1),
      (4, .cart 0 0)], "Linear Topology", true⟩

/-- The axes state `draw_topology` produces for the ring variant. -/
def figRing : AxesState :=
  ⟨⟨[(0, 1), (1, 2), (2, 3), (3, 4), (4, 0)]⟩,
    circular_layout ⟨[(0, 1), (1, 2), (2, 3), (3, 4), (4, 0)]⟩,
    "Ring Topology", true⟩

/-- The axes state `draw_topology` produces for the star variant. -/
def figStar : AxesState :=
  ⟨⟨[(0, 1), (0, 2), (0, 3), (0, 4)]⟩,
    [(0, .cart 0 0), (1, .cart 1 1), (2, .cart 1 (-1)), (3, .cart (-1) (-1)),
      (4, .cart (-1) 1)], "Star Topology", true⟩

theorem draw_linear_eq :
    draw_topology "linear" "Linear Topology" = .ok figLinear := rfl

theorem draw_ring_eq :
    draw_topology "ring" "Ring Topology" = .ok figRing := rfl

theorem draw_star_eq :
    draw_topology "star" "Star Topology" = .ok figStar := rfl

/-- A single adjacency step yields reachability. -/
theorem reach_single {G : PyGraph} {a b : ℕ} (h : G.Adj a b) : G.Reach a b :=
  Relation.ReflTransGen.single h

/-- Adjacency of the built graph is symmetric. -/
theorem adj_symmetric (G : PyGraph) : Symmetric G.Adj :=
  fun _ _ h => Or.symm h

/-- Reachability in the built graph is symmetric. -/
theorem reach_symm {G : PyGraph} {a b : ℕ} (h : G.Reach a b) : G.Reach b a :=
  Relation.ReflTransGen.symmetric (adj_symmetric G) h

/-- Every node of the linear graph is reachable from node 0. -/
theorem reach0_linear : ∀ b ∈ [0, 1, 2, 3, 4], (graphOf "linear").Reach 0 b := by
  intro b hb
  have r1 : (graphOf "linear").Reach 0 1 := reach_single (by decide)
  have r2 : (graphOf "linear").Reach 0 2 := r1.trans (reach_single (by decide))
  have r3 : (graphOf "linear").Reach 0 3 := r2.trans (reach_single (by decide))
  have r4 : (graphOf "linear").Reach 0 4 := r3.trans (reach_single (by decide))
  fin_cases hb
  · exact Relation.ReflTransGen.refl
  · exact r1
  · exact r2
  · exact r3
  · exact r4

/-- Every node of the ring graph is reachable from node 0. -/
theorem reach0_ring : ∀ b ∈ [0, 1, 2, 3, 4], (graphOf "ring").Reach 0 b := by
  intro b hb
  have r1 : (graphOf "ring").Reach 0 1 := reach_single (by decide)
  have r2 : (graphOf "ring").Reach 0 2 := r1.trans (reach_single (by decide))
  have r3 : (graphOf "ring").Reach 0 3 := r2.trans (reach_single (by decide))
  have r4 : (graphOf "ring").Reach 0 4 := r3.trans (reach_single (by decide))
  fin_cases hb
  · exact Relation.ReflTransGen.refl
  · exact r1
  · exact r2
  · exact r3
  · exact r4

/-- Every node of the star graph is reachable from node 0 (the center). -/
theorem reach0_star : ∀ b ∈ [0, 1, 2, 3, 4], (graphOf "star").Reach 0 b := by
  intro b hb
  fin_cases hb
  · exact Relation.ReflTransGen.refl
  · exact reach_single (by decide)
  · exact reach_single (by decide)
  · exact reach_single (by decide)
  · exact reach_single (by decide)

/-- A graph with node list `[0, 1, 2, 3, 4]` in which every node is
reachable from node 0 is connected. -/
theorem connected_of_reach0 (G : PyGraph) (h5 : G.nodeList = [0, 1, 2, 3, 4])
    (h0 : ∀ b ∈ [0, 1, 2, 3, 4], G.Reach 0 b) : G.Connected := by
  intro a ha b hb
  rw [h5] at ha hb
  exact (reach_symm (h0 a ha)).trans (h0 b hb)

/-- C1: the claim asks that any variant outside {linear, ring, star} yield a
defined `InvalidVariant` failure.  The source instead falls through its
`if`/`elif` chain without assigning `pos`, so the run fails with Python's
`UnboundLocalError` for `pos` — an unrelated error, not `InvalidVariant`.
This theorem evaluates the code at the failing input `"mesh"`. -/
theorem claim_C1_unknown_variant_unbound_pos :
    draw_topology "mesh" "Mesh Topology" = .error (.unboundLocal "pos") ∧
    draw_topology "mesh" "Mesh Topology" ≠ .error .invalidVariant := by
  refine ⟨rfl, fun h => ?_⟩
  rw [show draw_topology "mesh" "Mesh Topology" =
    Except.error (PyErr.unboundLocal "pos") from rfl] at h
  simp at h

/-- C2: the edge list of each variant's graph is exactly the fixed set the
spec states — linear {(0,1),(1,2),(2,3),(3,4)},
ring {(0,1),(1,2),(2,3),(3,4),(4,0)}, star {(0,1),(0,2),(0,3),(0,4)} —
and nothing else. -/
theorem claim_C2_edge_sets :
    (graphOf "linear").edges = [(0, 1), (1, 2), (2, 3), (3, 4)] ∧
    (graphOf "ring").edges = [(0, 1), (1, 2), (2, 3), (3, 4), (4, 0)] ∧
    (graphOf "star").edges = [(0, 1), (0, 2), (0, 3), (0, 4)] :=
  ⟨rfl, rfl, rfl⟩

/-- C3: for every variant, the constructed graph has exactly 5 nodes and
their labels are exactly 0, 1, 2, 3, 4 (in `networkx` insertion order). -/
theorem claim_C3_five_nodes :
    (graphOf "linear").nodeList = [0, 1, 2, 3, 4] ∧
    (graphOf "ring").nodeList = [0, 1, 2, 3, 4] ∧
    (graphOf "star").nodeList = [0, 1, 2, 3, 4] :=
  ⟨rfl, rfl, rfl⟩

set_option maxRecDepth 10000

/-- C4: among the three variants, only the ring graph contains a cycle; the
linear and star graphs are acyclic. -/
theorem claim_C4_only_ring_cyclic :
    HasCycle (graphOf "ring") ∧
    ¬ HasCycle (graphOf "linear") ∧ ¬ HasCycle (graphOf "star") := by
  refine ⟨⟨[0, 1, 2, 3, 4], by decide⟩, ?_, ?_⟩
  · exact not_hasCycle_of_enum _ (by decide)
  · exact not_hasCycle_of_enum _ (by decide)

/-- C5: in the star graph, node 0 has degree exactly 4 and each of the
nodes 1, 2, 3, 4 has degree exactly 1. -/
theorem claim_C5_star_degrees :
    (graphOf "star").degree 0 = 4 ∧ (graphOf "star").degree 1 = 1 ∧
    (graphOf "star").degree 2 = 1 ∧ (graphOf "star").degree 3 = 1 ∧
    (graphOf "star").degree 4 = 1 := by
  decide

/-- C6: the linear and star layouts are exactly the hardcoded literal
coordinate dictionaries of the source, every node of each graph is assigned
a coordinate, and the ring layout places all 5 nodes on a common circle
(equal radii), evenly spaced by angle (consecutive angular gaps are all
1/5 of a turn). -/
theorem claim_C6_layouts :
    layoutOf "linear" = [(0, .cart 4 0), (1, .cart 3 1), (2, .cart 2 2),
      (3, .cart 1 1), (4, .cart 0 0)] ∧
    layoutOf "star" = [(0, .cart 0 0), (1, .cart 1 1), (2, .cart 1 (-1)),
      (3, .cart (-1) (-1)), (4, .cart (-1) 1)] ∧
    (layoutOf "linear").map Prod.fst = (graphOf "linear").nodeList ∧
    (layoutOf "star").map Prod.fst = (graphOf "star").nodeList ∧
    (layoutOf "ring").map Prod.fst = (graphOf "ring").nodeList ∧
    (polarRadii (layoutOf "ring")).length = 5 ∧
    (∃ r : ℚ, ∀ x ∈ polarRadii (layoutOf "ring"), x = r) ∧
    List.Chain' (fun a b : ℚ => b - a = 1 / 5) (polarTurns (layoutOf "ring")) := by
  refine ⟨rfl, rfl, rfl, rfl, rfl, rfl, ⟨1, ?_⟩, ?_⟩
  · rw [show polarRadii (layoutOf "ring") = [1, 1, 1, 1, 1] from rfl]
    intro x hx
    fin_cases hx <;> rfl
  · have ht : polarTurns (layoutOf "ring") =
        [((0 : ℕ) : ℚ) / ((5 : ℕ) : ℚ), ((1 : ℕ) : ℚ) / ((5 : ℕ) : ℚ),
          ((2 : ℕ) : ℚ) / ((5 : ℕ) : ℚ), ((3 : ℕ) : ℚ) / ((5 : ℕ) : ℚ),
          ((4 : ℕ) : ℚ) / ((5 : ℕ) : ℚ)] := rfl
    rw [ht]
    simp only [List.chain'_cons, List.chain'_singleton, and_true]
    push_cast
    norm_num

/-- C7: a complete successful run saves exactly the three files
`linear_topology.png`, `ring_topology.png`, `star_topology.png` and prints
exactly the three lines `Saved <filename>`, in the order linear, ring,
star, and terminates successfully. -/
theorem claim_C7_three_files_three_lines :
    savedFiles mainEffects =
      ["linear_topology.png", "ring_topology.png", "star_topology.png"] ∧
    printedLines mainEffects =
      ["Saved linear_topology.png", "Saved ring_topology.png",
        "Saved star_topology.png"] ∧
    (programRun [] []).2 = true :=
  ⟨rfl, rfl, rfl⟩

/-- C8: no failure is caught or recovered.  For every choice of which
renders and file writes succeed: the run ends successfully exactly when all
three renders and all three writes succeed (so any single failure aborts
the whole run); a failure on the first (linear) block prevents the ring and
star renders from being attempted; and, in particular, if the second
(ring) render or save fails, the third (star) render is never attempted,
its file is never saved, and its confirmation line is never printed. -/
theorem claim_C8_any_failure_aborts (renderOk saveOk : String → Bool) :
    ((runMain renderOk saveOk).2 = true ↔
      (renderOk "linear" && saveOk "linear_topology.png" && renderOk "ring" &&
        saveOk "ring_topology.png" && renderOk "star" &&
        saveOk "star_topology.png") = true) ∧
    ((renderOk "linear" = false ∨ saveOk "linear_topology.png" = false) →
      Effect.renderAttempt "ring" ∉ (runMain renderOk saveOk).1 ∧
      Effect.renderAttempt "star" ∉ (runMain renderOk saveOk).1) ∧
    ((renderOk "ring" = false ∨ saveOk "ring_topology.png" = false) →
      (runMain renderOk saveOk).2 = false ∧
      Effect.renderAttempt "star" ∉ (runMain renderOk saveOk).1 ∧
      (∀ fig, Effect.save "star_topology.png" fig ∉
        (runMain renderOk saveOk).1) ∧
      Effect.printLine "Saved star_topology.png" ∉
        (runMain renderOk saveOk).1) := by
  cases hl : renderOk "linear" <;> cases hsl : saveOk "linear_topology.png" <;>
    cases hr : renderOk "ring" <;> cases hsr : saveOk "ring_topology.png" <;>
    cases hs : renderOk "star" <;> cases hss : saveOk "star_topology.png" <;>
    simp_all [runMain, runStep, draw_linear_eq, draw_ring_eq, draw_star_eq]

/-- Witness for C8: the theorem instantiated at a run whose only failing
library call is the write of `ring_topology.png`. -/
theorem claim_C8_any_failure_aborts_witness :
    ((runMain (fun _ => true) (fun s => decide (s ≠ "ring_topology.png"))).2
        = true ↔
      ((fun _ : String => true) "linear" &&
        (fun s : String => decide (s ≠ "ring_topology.png"))
          "linear_topology.png" &&
        (fun _ : String => true) "ring" &&
        (fun s : String => decide (s ≠ "ring_topology.png"))
          "ring_topology.png" &&
        (fun _ : String => true) "star" &&
        (fun s : String => decide (s ≠ "ring_topology.png"))
          "star_topology.png") = true) ∧
    (((fun _ : String => true) "linear" = false ∨
        (fun s : String => decide (s ≠ "ring_topology.png"))
          "linear_topology.png" = false) →
      Effect.renderAttempt "ring" ∉
        (runMain (fun _ => true)
          (fun s => decide (s ≠ "ring_topology.png"))).1 ∧
      Effect.renderAttempt "star" ∉
        (runMain (fun _ => true)
          (fun s => decide (s ≠ "ring_topology.png"))).1) ∧
    (((fun _ : String => true) "ring" = false ∨
        (fun s : String => decide (s ≠ "ring_topology.png"))
          "ring_topology.png" = false) →
      (runMain (fun _ => true)
        (fun s => decide (s ≠ "ring_topology.png"))).2 = false ∧
      Effect.renderAttempt "star" ∉
        (runMain (fun _ => true)
          (fun s => decide (s ≠ "ring_topology.png"))).1 ∧
      (∀ fig, Effect.save "star_topology.png" fig ∉
        (runMain (fun _ => true)
          (fun s => decide (s ≠ "ring_topology.png"))).1) ∧
      Effect.printLine "Saved star_topology.png" ∉
        (runMain (fun _ => true)
          (fun s => decide (s ≠ "ring_topology.png"))).1) :=
  claim_C8_any_failure_aborts (fun _ => true)
    (fun s => decide (s ≠ "ring_topology.png"))

/-- C9: the program reads no arguments and no environment, so any two runs
produce the same effect trace (same graphs, layouts and file content), and
applying the trace twice to any prior directory state equals applying it
once — output is overwritten without error. -/
theorem claim_C9_deterministic_idempotent :
    (∀ a1 e1 a2 e2, programRun a1 e1 = programRun a2 e2) ∧
    (∀ fs : FileSys,
      applyEffects (applyEffects fs mainEffects) mainEffects =
        applyEffects fs mainEffects) := by
  refine ⟨fun a1 e1 a2 e2 => rfl, fun fs => ?_⟩
  funext k
  have hm : mainEffects = [.renderAttempt "linear",
    .save "linear_topology.png" figLinear,
    .printLine "Saved linear_topology.png",
    .renderAttempt "ring", .save "ring_topology.png" figRing,
    .printLine "Saved ring_topology.png", .renderAttempt "star",
    .save "star_topology.png" figStar,
    .printLine "Saved star_topology.png"] := rfl
  rw [hm]
  simp only [applyEffects, List.foldl, applyEffect]
  by_cases h1 : k = "linear_topology.png" <;>
    by_cases h2 : k = "ring_topology.png" <;>
    by_cases h3 : k = "star_topology.png" <;> simp [h1, h2, h3]

/-- C10: for every variant, the constructed graph is connected — every pair
of its 5 nodes is joined by a path of edges. -/
theorem claim_C10_all_connected :
    (graphOf "linear").Connected ∧ (graphOf "ring").Connected ∧
    (graphOf "star").Connected :=
  ⟨connected_of_reach0 _ rfl reach0_linear,
   connected_of_reach0 _ rfl reach0_ring,
   connected_of_reach0 _ rfl reach0_star⟩

end NetworkLabs
